/-
Verification of the IMCooked trading client (src/bot.py) against its
natural-language specification.

The Python source is shallowly embedded: pure computations become Lean
functions, the network is an explicit input (`FetchResult`, `RestReply`),
exceptions become `Except`, Python `float` prices become `Rat`, Python
arbitrary-precision `int` becomes `Int`, and Python `str` timestamps become
`String` compared lexicographically by code point (exactly Python's `<`/`>`
on `str`).
-/
import Mathlib

namespace IMCooked

/-! ## Data model (src/bot.py dataclasses) -/

/-- `Trade` dataclass: timestamp, product, buyer, seller, volume, price
(src/bot.py lines 56-63). -/
structure Trade where
  timestamp : String
  product : String
  buyer : String
  seller : String
  volume : Int
  price : Rat
  deriving DecidableEq, Repr

/-- `Order` dataclass: one price level of an order book
(src/bot.py lines 66-70). -/
structure Order where
  price : Rat
  volume : Int
  own_volume : Int
  deriving DecidableEq, Repr

/-- `OrderBook` dataclass (src/bot.py lines 73-78). -/
structure OrderBook where
  product : String
  tick_size : Rat
  buy_orders : List Order
  sell_orders : List Order
  deriving DecidableEq, Repr

/-- `Side` enum (src/bot.py lines 81-83). -/
inductive Side where
  | BUY
  | SELL
  deriving DecidableEq, Repr

/-- `OrderRequest` dataclass (src/bot.py lines 86-91). -/
structure OrderRequest where
  product : String
  price : Rat
  side : Side
  volume : Int
  deriving DecidableEq, Repr

/-- `OrderResponse` status literal `"ACTIVE" | "PART_FILLED"`
(src/bot.py line 97). -/
inductive OrderStatus where
  | ACTIVE
  | PART_FILLED
  deriving DecidableEq, Repr

/-- `OrderResponse` dataclass (src/bot.py lines 94-106). -/
structure OrderResponse where
  id : String
  status : OrderStatus
  product : String
  side : Side
  price : Rat
  volume : Int
  filled : Int
  user : String
  timestamp : String
  targetUser : Option String := none
  message : Option String := none
  deriving DecidableEq, Repr

/-! ## String comparison

Python compares `str` lexicographically by code point; Lean's `String`
order is the lexicographic order on the underlying `List Char`.  We use an
executable comparison on the character lists and bridge it to `<` on
`String` via `String.lt_iff_toList_lt`. -/

/-- Executable strict lexicographic comparison of strings, equal to `<` on
`String` (see `strLtb_iff`). -/
def strLtb (a b : String) : Bool :=
  decide (a.toList < b.toList)

theorem strLtb_iff (a b : String) : strLtb a b = true ↔ a < b := by
  rw [strLtb, decide_eq_true_iff, String.lt_iff_toList_lt]

/-! ## Incremental trade ledger (`BaseBot.get_market_trades`)

State carried on the bot instance: `self.trades` and
`self._trade_watermark` (src/bot.py lines 193-194). -/

/-- The ledger state of a `BaseBot`: accumulated trades and the high-water
timestamp (`self.trades`, `self._trade_watermark`). -/
structure LedgerState where
  trades : List Trade
  watermark : Option String
  deriving DecidableEq, Repr

/-- The filter condition of the poll loop (src/bot.py line 258):
`self._trade_watermark is None or trade.timestamp > self._trade_watermark`. -/
def tradeIsNew (w : Option String) (t : Trade) : Bool :=
  match w with
  | none => true
  | some w => strLtb w t.timestamp

/-- The state transition of `get_market_trades` on a successfully parsed
batch (src/bot.py lines 255-263): filter records newer than the watermark,
extend the ledger, and advance the watermark to the last appended trade's
timestamp (only when something was appended). -/
def ingest (s : LedgerState) (batch : List Trade) : LedgerState :=
  let newTrades := batch.filter (tradeIsNew s.watermark)
  match newTrades.getLast? with
  | none => s
  | some last => ⟨s.trades ++ newTrades, some last.timestamp⟩

/-! ### Raw JSON records and `Trade(**raw)` construction

`response.json()` yields a list of JSON objects; a JSON object is modelled
as an association list of string keys to values.  `Trade(**raw)` raises
`TypeError` when the key set of `raw` differs from the six dataclass
fields (a missing required keyword or an unexpected keyword argument).
Field values carried by this endpoint are strings for
timestamp/product/buyer/seller, an integer volume and a numeric price;
value extraction is modelled as typed projection. -/

/-- A JSON scalar value as it appears in a trade record. -/
inductive Val where
  | s (v : String)
  | i (n : Int)
  | q (r : Rat)
  deriving DecidableEq, Repr

/-- A parsed JSON object: keys to values. -/
abbrev RawRecord := List (String × Val)

/-- The six field names of the `Trade` dataclass, in declaration order
(src/bot.py lines 56-63). -/
def tradeFields : List String :=
  ["timestamp", "product", "buyer", "seller", "volume", "price"]

/-- Python `Trade(**raw)` succeeds exactly when the key set of `raw` equals
the six dataclass field names: every field present and no extra keyword. -/
def keysOk (raw : RawRecord) : Bool :=
  tradeFields.all (fun f => (raw.lookup f).isSome) &&
    raw.all (fun kv => tradeFields.contains kv.1)

/-- `Trade(**raw)` on the polling path (src/bot.py line 257): no key
filtering; raises `TypeError` on a missing or unexpected key, otherwise
builds the `Trade` from the six fields. -/
def mkTradeStrict (raw : RawRecord) : Except String Trade :=
  if keysOk raw then
    match raw.lookup "timestamp", raw.lookup "product", raw.lookup "buyer",
        raw.lookup "seller", raw.lookup "volume", raw.lookup "price" with
    | some (.s ts), some (.s prod), some (.s b), some (.s sel),
        some (.i v), some (.q p) =>
      .ok ⟨ts, prod, b, sel, v, p⟩
    | _, _, _, _, _, _ => .error "TypeError: ill-typed field value"
  else
    .error "TypeError: keys do not match the Trade fields"

/-- `Trade(**{k: v for k, v in t.items() if k in trade_fields})`: the
live-stream path (src/bot.py lines 160-162) drops unknown keys before
constructing the `Trade`. -/
def mkTradeLenient (raw : RawRecord) : Except String Trade :=
  mkTradeStrict (raw.filter (fun kv => tradeFields.contains kv.1))

/-- The parsing loop of `get_market_trades` (src/bot.py lines 256-257):
each raw record is passed to `Trade(**raw)` in order; the first failure
raises out of the call. -/
def parseTrades : List RawRecord → Except String (List Trade)
  | [] => .ok []
  | r :: rs =>
    match mkTradeStrict r with
    | .error e => .error e
    | .ok t =>
      match parseTrades rs with
      | .error e => .error e
      | .ok ts => .ok (t :: ts)

/-- The outcome of `requests.get(f"{url}/api/trade", ...)` as seen by
`get_market_trades`: the request itself may raise (transport failure —
uncaught in the source), or return a response with a non-success status
(`not response.ok`), or return a success-status response with a JSON list
of records. -/
inductive FetchResult where
  | raise (exc : String)
  | badStatus (status : Nat)
  | success (records : List RawRecord)
  deriving DecidableEq, Repr

/-- `BaseBot.get_market_trades` (src/bot.py lines 236-265) as a function of
the ledger state and the fetch outcome.  Returns the new state and the
returned value `self.trades`, or the exception that propagates to the
caller.  (`self._last_trade_fetch` bookkeeping is not part of any claim and
is omitted.) -/
def getMarketTrades (s : LedgerState) (r : FetchResult) :
    Except String (LedgerState × List Trade) :=
  match r with
  | .raise exc => .error exc
  | .badStatus _ => .ok (s, s.trades)
  | .success recs =>
    match parseTrades recs with
    | .error e => .error e
    | .ok batch =>
      let s' := ingest s batch
      .ok (s', s'.trades)

/-- A sequence of `get_market_trades` calls from a caller that survives
raised exceptions: on an exception the bot state is unchanged (the raise
happens before `self.trades` or the watermark is touched). -/
def runCalls (s : LedgerState) (rs : List FetchResult) : LedgerState :=
  rs.foldl
    (fun s r =>
      match getMarketTrades s r with
      | .ok (s', _) => s'
      | .error _ => s)
    s

/-! ## SSE order-book events (`_SSEThread._on_order_event`)

The wire payload carries `buyOrders` and `sellOrders` as JSON objects
mapping a price to `{marketVolume, userVolume}`; a JSON object's keys are
distinct, and its entries may arrive (and iterate) in any order.  An entry
is modelled as `(price, marketVolume, userVolume)`. -/

/-- One entry of the wire's price → volumes mapping. -/
structure WireLevel where
  price : Rat
  marketVolume : Int
  userVolume : Int
  deriving DecidableEq, Repr

/-- `Order(price=float(price), volume=v["marketVolume"], own_volume=v["userVolume"])`
(src/bot.py lines 167, 174). -/
def wireOrder (e : WireLevel) : Order :=
  ⟨e.price, e.marketVolume, e.userVolume⟩

/-- `_SSEThread._on_order_event` (src/bot.py lines 164-179): build the two
sides from the wire mappings, sort buys by descending price and sells by
ascending price, and publish the resulting `OrderBook`. -/
def onOrderEvent (product : String) (tickSize : Rat)
    (buyM sellM : List WireLevel) : OrderBook :=
  { product := product
    tick_size := tickSize
    buy_orders :=
      (buyM.map wireOrder).mergeSort (fun a b => decide (b.price ≤ a.price))
    sell_orders :=
      (sellM.map wireOrder).mergeSort (fun a b => decide (a.price ≤ b.price)) }

/-! ## Order dispatch (`BaseBot.send_order` / `send_orders`) -/

/-- The venue's reply to one `requests.post(f"{url}/api/order", ...)`:
either a success-status response carrying an `OrderResponse` payload, or a
non-success status (`not response.ok`). -/
inductive RestReply where
  | ok (resp : OrderResponse)
  | err (status : Nat)
  deriving DecidableEq, Repr

/-- Whether a reply is a venue rejection. -/
def RestReply.isErr : RestReply → Bool
  | .ok _ => false
  | .err _ => true

/-- `BaseBot.send_order` (src/bot.py lines 276-285): a success response is
parsed into an `OrderResponse`; a non-success response is logged and
becomes `None`. -/
def sendOrder (_o : OrderRequest) (reply : RestReply) : Option OrderResponse :=
  match reply with
  | .ok resp => some resp
  | .err _ => none

/-- `BaseBot.send_orders` (src/bot.py lines 287-300): one thread per leg,
each appending its `send_order` result to `results` when it is not `None`.
`legs` pairs each request with its venue reply; `sched` is the order in
which the threads perform their appends (any interleaving of thread
completion), given as a list of leg indices. -/
def sendOrders (legs : List (OrderRequest × RestReply)) (sched : List Nat) :
    List OrderResponse :=
  sched.filterMap (fun i => (legs.get? i).bind (fun l => sendOrder l.1 l.2))

/-! ## ETF arbitrage strategy (`ETFArbitrageBot`) -/

/-- Market symbols (src/bot.py lines 379-382). -/
def M1 : String := "M1"

/-- Market 3 symbol. -/
def M3 : String := "M3"

/-- Market 5 symbol. -/
def M5 : String := "M5"

/-- Market 7 (ETF) symbol. -/
def M7 : String := "M7"

/-- The strategy's configuration attributes `MIN_SPREAD`, `MAX_POSITION`
and `ORDER_SIZE` (src/bot.py lines 384-386; mutable on the instance, so
modelled as parameters). -/
structure ArbConfig where
  MIN_SPREAD : Rat
  MAX_POSITION : Int
  ORDER_SIZE : Int
  deriving DecidableEq, Repr

/-- The constructor defaults: `MIN_SPREAD = 5`, `MAX_POSITION = 100`,
`ORDER_SIZE = 5`. -/
def defaultArbConfig : ArbConfig := ⟨5, 100, 5⟩

/-- The bot's `self.orderbooks` dict: latest snapshot per product symbol. -/
abbrev Books := String → Option OrderBook

/-- `ETFArbitrageBot.get_best_bid` (src/bot.py lines 400-405): `None` when
the product has no book or its buy side is empty, else the first buy
level's price. -/
def bestBid (books : Books) (product : String) : Option Rat :=
  (books product).bind (fun b => b.buy_orders.head?.map Order.price)

/-- `ETFArbitrageBot.get_best_ask` (src/bot.py lines 407-412). -/
def bestAsk (books : Books) (product : String) : Option Rat :=
  (books product).bind (fun b => b.sell_orders.head?.map Order.price)

/-- `get_synthetic_etf_bid` (src/bot.py lines 422-431): sum of the three
component best bids, `None` if any is missing. -/
def synthBid (books : Books) : Option Rat :=
  match bestBid books M1, bestBid books M3, bestBid books M5 with
  | some b1, some b3, some b5 => some (b1 + b3 + b5)
  | _, _, _ => none

/-- `get_synthetic_etf_ask` (src/bot.py lines 433-442). -/
def synthAsk (books : Books) : Option Rat :=
  match bestAsk books M1, bestAsk books M3, bestAsk books M5 with
  | some a1, some a3, some a5 => some (a1 + a3 + a5)
  | _, _, _ => none

/-- `execute_arbitrage_etf_overpriced` (src/bot.py lines 498-518): the
four-leg batch handed to `send_orders` — buy each component at its best
ask, sell the ETF at its best bid; `None` if any price is missing. -/
def executeOverpriced (cfg : ArbConfig) (books : Books) :
    Option (List OrderRequest) :=
  match bestAsk books M1, bestAsk books M3, bestAsk books M5,
      bestBid books M7 with
  | some a1, some a3, some a5, some b7 =>
    some [⟨M1, a1, .BUY, cfg.ORDER_SIZE⟩, ⟨M3, a3, .BUY, cfg.ORDER_SIZE⟩,
      ⟨M5, a5, .BUY, cfg.ORDER_SIZE⟩, ⟨M7, b7, .SELL, cfg.ORDER_SIZE⟩]
  | _, _, _, _ => none

/-- `execute_arbitrage_etf_underpriced` (src/bot.py lines 520-540): buy the
ETF at its best ask, sell each component at its best bid. -/
def executeUnderpriced (cfg : ArbConfig) (books : Books) :
    Option (List OrderRequest) :=
  match bestAsk books M7, bestBid books M1, bestBid books M3,
      bestBid books M5 with
  | some a7, some b1, some b3, some b5 =>
    some [⟨M7, a7, .BUY, cfg.ORDER_SIZE⟩, ⟨M1, b1, .SELL, cfg.ORDER_SIZE⟩,
      ⟨M3, b3, .SELL, cfg.ORDER_SIZE⟩, ⟨M5, b5, .SELL, cfg.ORDER_SIZE⟩]
  | _, _, _, _ => none

/-- `ETFArbitrageBot.check_arbitrage` (src/bot.py lines 444-496), with the
positions snapshot returned by `get_positions()` as input (`pos p` is
`positions.get(p, 0)`).  The result is the order batch passed to
`send_orders`, or `none` when no dispatch happens (missing prices,
insufficient spread, or a position-cap violation). -/
def checkArbitrage (cfg : ArbConfig) (books : Books) (pos : String → Int) :
    Option (List OrderRequest) :=
  match bestBid books M7, bestAsk books M7, synthBid books, synthAsk books with
  | some etfBid, some etfAsk, some sBid, some sAsk =>
    if etfBid - sAsk > cfg.MIN_SPREAD then
      if |pos M1 + cfg.ORDER_SIZE| ≤ cfg.MAX_POSITION ∧
          |pos M3 + cfg.ORDER_SIZE| ≤ cfg.MAX_POSITION ∧
          |pos M5 + cfg.ORDER_SIZE| ≤ cfg.MAX_POSITION ∧
          |pos M7 - cfg.ORDER_SIZE| ≤ cfg.MAX_POSITION then
        executeOverpriced cfg books
      else none
    else if sBid - etfAsk > cfg.MIN_SPREAD then
      if |pos M1 - cfg.ORDER_SIZE| ≤ cfg.MAX_POSITION ∧
          |pos M3 - cfg.ORDER_SIZE| ≤ cfg.MAX_POSITION ∧
          |pos M5 - cfg.ORDER_SIZE| ≤ cfg.MAX_POSITION ∧
          |pos M7 + cfg.ORDER_SIZE| ≤ cfg.MAX_POSITION then
        executeUnderpriced cfg books
      else none
    else none
  | _, _, _, _ => none

/-- The four products the strategy requires (src/bot.py line 393). -/
def requiredMarkets : List String := [M1, M3, M5, M7]

/-- `ETFArbitrageBot.on_orderbook` (src/bot.py lines 388-394): store the
snapshot, then evaluate only once all four required products have a book.
Returns the updated `self.orderbooks` and the dispatched batch (if any). -/
def onOrderbook (books : Books) (pos : String → Int) (cfg : ArbConfig)
    (ob : OrderBook) : Books × Option (List OrderRequest) :=
  let books' : Books := fun p => if p = ob.product then some ob else books p
  if requiredMarkets.all (fun m => (books' m).isSome) then
    (books', checkArbitrage cfg books' pos)
  else
    (books', none)

/-! ## Spec-side predicate -/

/-- The TradeLedger invariant claimed by the spec, strengthened to an
inductive invariant: no duplicate entries, every recorded trade's timestamp
is bounded by the watermark, and an unset watermark means an empty ledger. -/
def ledgerInv (s : LedgerState) : Prop :=
  s.trades.Nodup ∧
  (∀ t ∈ s.trades, ∀ w, s.watermark = some w → t.timestamp ≤ w) ∧
  (s.watermark = none → s.trades = [])

/-! ## Concrete sample inputs (used to instantiate the theorems) -/

/-- A well-formed raw trade record with timestamp before the sample
watermark. -/
def sampleRecOld : RawRecord :=
  [("timestamp", .s "2024-01-01T09:59:59"), ("product", .s "M1"),
   ("buyer", .s "alice"), ("seller", .s "bob"), ("volume", .i 1),
   ("price", .q 10)]

/-- A well-formed raw trade record whose timestamp equals the sample
watermark. -/
def sampleRecEq : RawRecord :=
  [("timestamp", .s "2024-01-01T10:00:00"), ("product", .s "M1"),
   ("buyer", .s "carol"), ("seller", .s "dave"), ("volume", .i 2),
   ("price", .q 11)]

/-- A well-formed raw trade record with timestamp after the sample
watermark. -/
def sampleRecNew : RawRecord :=
  [("timestamp", .s "2024-01-01T10:00:01"), ("product", .s "M1"),
   ("buyer", .s "erin"), ("seller", .s "frank"), ("volume", .i 3),
   ("price", .q 12)]

/-- A raw trade record carrying an extra key `"venue"` on top of the six
`Trade` fields. -/
def sampleRecExtra : RawRecord :=
  sampleRecNew ++ [("venue", .s "CMI")]

/-- The `Trade` values of the three well-formed sample records. -/
def sampleTradeOld : Trade := ⟨"2024-01-01T09:59:59", "M1", "alice", "bob", 1, 10⟩

/-- See `sampleTradeOld`. -/
def sampleTradeEq : Trade := ⟨"2024-01-01T10:00:00", "M1", "carol", "dave", 2, 11⟩

/-- See `sampleTradeOld`. -/
def sampleTradeNew : Trade := ⟨"2024-01-01T10:00:01", "M1", "erin", "frank", 3, 12⟩

/-- A ledger state holding one trade, with the watermark at
`2024-01-01T10:00:00`. -/
def sampleLedger : LedgerState :=
  ⟨[sampleTradeEq], some "2024-01-01T10:00:00"⟩

/-- An order book with a single level on each side. -/
def sampleBook (p : String) (bid ask : Rat) : OrderBook :=
  ⟨p, 1, [⟨bid, 1, 0⟩], [⟨ask, 1, 0⟩]⟩

/-- A books snapshot in which the ETF market is crossed so far that both
the overpriced spread (100 - 3 = 97) and the underpriced spread
(180 - 1 = 179) exceed the default minimum spread of 5. -/
def sampleBooksCrossed : Books := fun p =>
  if p = "M1" then some (sampleBook "M1" 60 1)
  else if p = "M3" then some (sampleBook "M3" 60 1)
  else if p = "M5" then some (sampleBook "M5" 60 1)
  else if p = "M7" then some (sampleBook "M7" 100 1)
  else none

/-- A books snapshot where only the ETF is quoted. -/
def sampleBooksOnlyEtf : Books := fun p =>
  if p = "M7" then some (sampleBook "M7" 100 99) else none

/-- An ETF book whose buy side is empty. -/
def sampleBookNoBid (p : String) : OrderBook := ⟨p, 1, [], [⟨1, 1, 0⟩]⟩

/-- A books snapshot with all four products present but an empty buy side
on M3 (so the synthetic bid is unavailable). -/
def sampleBooksNoBidM3 : Books := fun p =>
  if p = "M1" then some (sampleBook "M1" 60 1)
  else if p = "M3" then some (sampleBookNoBid "M3")
  else if p = "M5" then some (sampleBook "M5" 60 1)
  else if p = "M7" then some (sampleBook "M7" 100 1)
  else none

/-- A sample order response used by the dispatcher witnesses. -/
def sampleResp (i : String) : OrderResponse :=
  { id := i, status := .ACTIVE, product := "M1", side := .BUY, price := 1,
    volume := 5, filled := 0, user := "u", timestamp := "2024-01-01T10:00:00" }

/-- A three-leg batch in which the middle leg is rejected by the venue. -/
def sampleLegs : List (OrderRequest × RestReply) :=
  [(⟨"M1", 10, .BUY, 5⟩, .ok (sampleResp "a")),
   (⟨"M3", 11, .BUY, 5⟩, .err 400),
   (⟨"M5", 12, .SELL, 5⟩, .ok (sampleResp "b"))]

/-! # Theorems

General-purpose helper lemmas first, then one theorem per claim. -/

theorem mem_of_getLast?_eq {α : Type} {l : List α} {a : α}
    (h : l.getLast? = some a) : a ∈ l := by
  obtain ⟨hne, rfl⟩ := List.mem_getLast?_eq_getLast h
  exact List.getLast_mem hne

theorem tradeIsNew_iff (w : Option String) (t : Trade) :
    tradeIsNew w t = true ↔
      (w = none ∨ ∃ w', w = some w' ∧ w' < t.timestamp) := by
  cases w with
  | none => simp [tradeIsNew]
  | some w' =>
    simp only [tradeIsNew, strLtb_iff]
    constructor
    · intro h; exact Or.inr ⟨w', rfl, h⟩
    · rintro (h | ⟨w'', hw, h⟩)
      · exact Option.noConfusion h
      · injection hw with hw'; rwa [hw']

theorem ingest_of_no_new (s : LedgerState) (batch : List Trade)
    (h : ∀ t ∈ batch, ∃ w, s.watermark = some w ∧ ¬ w < t.timestamp) :
    ingest s batch = s := by
  have hfilter : batch.filter (tradeIsNew s.watermark) = [] := by
    rw [List.filter_eq_nil_iff]
    intro t ht hnew
    rcases (tradeIsNew_iff _ _).mp hnew with hw | ⟨w', hw, hlt⟩
    · obtain ⟨w, hw', _⟩ := h t ht
      rw [hw] at hw'; exact Option.noConfusion hw'
    · obtain ⟨w, hw', hnlt⟩ := h t ht
      rw [hw] at hw'; injection hw' with he; rw [he] at hlt
      exact hnlt hlt
  simp [ingest, hfilter]

theorem parseTrades_error_of_bad_keys (recs : List RawRecord)
    (raw : RawRecord) (hmem : raw ∈ recs) (hbad : keysOk raw = false) :
    ∃ e, parseTrades recs = .error e := by
  induction recs with
  | nil => cases hmem
  | cons r rs ih =>
    rcases List.mem_cons.mp hmem with rfl | hmem'
    · refine ⟨"TypeError: keys do not match the Trade fields", ?_⟩
      simp [parseTrades, mkTradeStrict, hbad]
    · obtain ⟨e, he⟩ := ih hmem'
      cases hmk : mkTradeStrict r with
      | error e' => exact ⟨e', by simp [parseTrades, hmk]⟩
      | ok t => exact ⟨e, by simp [parseTrades, hmk, he]⟩

/-- **C2 counterexample.** A transport-level failure of the trade fetch
(`requests.get` raising, e.g. a connection error) is not caught anywhere in
`get_market_trades`: the call raises to the caller instead of returning the
ledger. -/
theorem get_market_trades_raises_on_transport_failure :
    getMarketTrades ⟨[], none⟩ (.raise "ConnectionError") =
        .error "ConnectionError" ∧
      getMarketTrades ⟨[], none⟩ (.raise "ConnectionError") ≠
        .ok (⟨[], none⟩, []) :=
  ⟨rfl, fun h => Except.noConfusion h⟩

/-- **C2 (amended).** When the fetch completes with a non-success HTTP
status, `get_market_trades` logs, returns the accumulated trade list
unchanged, leaves the watermark unchanged, and does not raise; a
transport-level exception raised by the HTTP library instead propagates to
the caller, with ledger and watermark untouched. -/
theorem get_market_trades_bad_status_unchanged (s : LedgerState)
    (status : Nat) (exc : String) :
    getMarketTrades s (.badStatus status) = .ok (s, s.trades) ∧
      getMarketTrades s (.raise exc) = .error exc :=
  ⟨rfl, rfl⟩

/-- **C1.** On a success response whose records parse to `batch`, exactly
the returned trades with timestamp strictly above the watermark are
appended (all of them when there is no watermark yet), the watermark moves
to the timestamp of the last appended trade (and stays put when nothing is
appended), and a returned trade whose timestamp equals the watermark is
excluded even if it was never previously observed. -/
theorem get_market_trades_watermark_filter (s : LedgerState)
    (recs : List RawRecord) (batch : List Trade)
    (hp : parseTrades recs = .ok batch) :
    ∃ s' appended,
      getMarketTrades s (.success recs) = .ok (s', s'.trades) ∧
      s'.trades = s.trades ++ appended ∧
      appended = batch.filter (tradeIsNew s.watermark) ∧
      (∀ t ∈ batch, t ∈ appended ↔
        (s.watermark = none ∨ ∃ w, s.watermark = some w ∧ w < t.timestamp)) ∧
      (s.watermark = none → appended = batch) ∧
      (∀ last, appended.getLast? = some last →
        s'.watermark = some last.timestamp) ∧
      (appended = [] → s'.watermark = s.watermark) ∧
      (∀ t ∈ batch, s.watermark = some t.timestamp → t ∉ appended) := by
  refine ⟨ingest s batch, batch.filter (tradeIsNew s.watermark),
    ?_, ?_, rfl, ?_, ?_, ?_, ?_, ?_⟩
  · simp [getMarketTrades, hp]
  · rw [ingest]
    cases hl : (batch.filter (tradeIsNew s.watermark)).getLast? with
    | none =>
      rw [List.getLast?_eq_none_iff] at hl
      rw [hl, List.append_nil]
    | some last => rfl
  · intro t ht
    rw [List.mem_filter]
    constructor
    · intro h; exact (tradeIsNew_iff _ _).mp h.2
    · intro h; exact ⟨ht, (tradeIsNew_iff _ _).mpr h⟩
  · intro hw
    rw [hw]
    simp [tradeIsNew]
  · intro last hl
    rw [ingest, hl]
  · intro h0
    rw [ingest, h0]
    rfl
  · intro t ht hw hmem
    have hcond := (List.mem_filter.mp hmem).2
    rw [hw] at hcond
    simp only [tradeIsNew, strLtb_iff] at hcond
    exact absurd hcond (lt_irrefl _)

/-- **C1 witness**: in the sample state with watermark
`2024-01-01T10:00:00`, of the three returned records (older, equal, newer)
only the newer one is appended and the watermark advances to its
timestamp. -/
theorem get_market_trades_watermark_filter_witness :
    ∃ s' appended,
      getMarketTrades sampleLedger
          (.success [sampleRecOld, sampleRecEq, sampleRecNew]) =
        .ok (s', s'.trades) ∧
      s'.trades = sampleLedger.trades ++ appended ∧
      appended = [sampleTradeOld, sampleTradeEq, sampleTradeNew].filter
        (tradeIsNew sampleLedger.watermark) ∧
      (∀ t ∈ [sampleTradeOld, sampleTradeEq, sampleTradeNew],
        t ∈ appended ↔
          (sampleLedger.watermark = none ∨
            ∃ w, sampleLedger.watermark = some w ∧ w < t.timestamp)) ∧
      (sampleLedger.watermark = none →
        appended = [sampleTradeOld, sampleTradeEq, sampleTradeNew]) ∧
      (∀ last, appended.getLast? = some last →
        s'.watermark = some last.timestamp) ∧
      (appended = [] → s'.watermark = sampleLedger.watermark) ∧
      (∀ t ∈ [sampleTradeOld, sampleTradeEq, sampleTradeNew],
        sampleLedger.watermark = some t.timestamp → t ∉ appended) :=
  get_market_trades_watermark_filter sampleLedger
    [sampleRecOld, sampleRecEq, sampleRecNew]
    [sampleTradeOld, sampleTradeEq, sampleTradeNew] (by rfl)

/-- **C4.** When a fetch returns only trades at or below the current
watermark (in particular, no new exchange-side trades), the call leaves the
state unchanged, and so does calling it twice in succession: the
accumulated list and the watermark after the second call equal those
before the first. -/
theorem get_market_trades_idempotent (s : LedgerState)
    (recs₁ recs₂ : List RawRecord) (b₁ b₂ : List Trade)
    (hp₁ : parseTrades recs₁ = .ok b₁) (hp₂ : parseTrades recs₂ = .ok b₂)
    (h₁ : ∀ t ∈ b₁, ∃ w, s.watermark = some w ∧ ¬ w < t.timestamp)
    (h₂ : ∀ t ∈ b₂, ∃ w, s.watermark = some w ∧ ¬ w < t.timestamp) :
    getMarketTrades s (.success recs₁) = .ok (s, s.trades) ∧
      (getMarketTrades s (.success recs₁)).bind
          (fun p => getMarketTrades p.1 (.success recs₂)) =
        .ok (s, s.trades) := by
  have e₁ : ingest s b₁ = s := ingest_of_no_new s b₁ h₁
  have e₂ : ingest s b₂ = s := ingest_of_no_new s b₂ h₂
  have hfst : getMarketTrades s (.success recs₁) = .ok (s, s.trades) := by
    simp [getMarketTrades, hp₁, e₁]
  refine ⟨hfst, ?_⟩
  rw [hfst]
  show getMarketTrades s (.success recs₂) = .ok (s, s.trades)
  simp [getMarketTrades, hp₂, e₂]

/-- **C4 witness**: fetching records at or below the sample watermark twice
leaves the sample ledger and its watermark unchanged both times. -/
theorem get_market_trades_idempotent_witness :
    getMarketTrades sampleLedger (.success [sampleRecOld, sampleRecEq]) =
        .ok (sampleLedger, sampleLedger.trades) ∧
      (getMarketTrades sampleLedger
          (.success [sampleRecOld, sampleRecEq])).bind
          (fun p => getMarketTrades p.1 (.success [sampleRecOld, sampleRecEq])) =
        .ok (sampleLedger, sampleLedger.trades) :=
  get_market_trades_idempotent sampleLedger
    [sampleRecOld, sampleRecEq] [sampleRecOld, sampleRecEq]
    [sampleTradeOld, sampleTradeEq] [sampleTradeOld, sampleTradeEq]
    (by rfl) (by rfl)
    (by
      intro t ht
      rcases List.mem_cons.mp ht with rfl | ht'
      · exact ⟨_, rfl, by rw [String.lt_iff_toList_lt]; decide⟩
      · rcases List.mem_cons.mp ht' with rfl | ht''
        · exact ⟨_, rfl, by rw [String.lt_iff_toList_lt]; decide⟩
        · cases ht'')
    (by
      intro t ht
      rcases List.mem_cons.mp ht with rfl | ht'
      · exact ⟨_, rfl, by rw [String.lt_iff_toList_lt]; decide⟩
      · rcases List.mem_cons.mp ht' with rfl | ht''
        · exact ⟨_, rfl, by rw [String.lt_iff_toList_lt]; decide⟩
        · cases ht'')

/-- **C10.** The polling path builds each `Trade` directly from the raw
record with no field filtering: if any returned record has a key outside
the six `Trade` fields or lacks one of them, `get_market_trades` raises to
the caller; the live-stream path instead restricts the record to the known
fields before construction, so it succeeds whenever the restricted record
does. -/
theorem get_market_trades_no_field_filtering (s : LedgerState)
    (recs : List RawRecord) (raw : RawRecord) (hmem : raw ∈ recs)
    (hbad : keysOk raw = false) :
    (∃ e, getMarketTrades s (.success recs) = .error e) ∧
      (∀ t, mkTradeStrict
          (raw.filter (fun kv => tradeFields.contains kv.1)) = .ok t →
        mkTradeLenient raw = .ok t) := by
  constructor
  · obtain ⟨e, he⟩ := parseTrades_error_of_bad_keys recs raw hmem hbad
    exact ⟨e, by simp [getMarketTrades, he]⟩
  · intro t ht
    exact ht

/-- **C10 witness**: a record with the extra key `"venue"` makes the poll
path raise, while the live-stream path's key-filtered construction accepts
the very same record. -/
theorem get_market_trades_no_field_filtering_witness :
    (∃ e, getMarketTrades ⟨[], none⟩ (.success [sampleRecExtra]) =
      .error e) ∧
      (∀ t, mkTradeStrict
          (sampleRecExtra.filter (fun kv => tradeFields.contains kv.1)) =
            .ok t →
        mkTradeLenient sampleRecExtra = .ok t) :=
  get_market_trades_no_field_filtering ⟨[], none⟩ [sampleRecExtra]
    sampleRecExtra (by decide) (by decide)

theorem sorted_timestamp_le_getLast (l : List Trade)
    (hs : l.Pairwise (fun a b => a.timestamp ≤ b.timestamp))
    (last : Trade) (hl : l.getLast? = some last) :
    ∀ x ∈ l, x.timestamp ≤ last.timestamp := by
  induction l with
  | nil => cases hl
  | cons a t ih =>
    cases t with
    | nil =>
      intro x hx
      rcases List.mem_cons.mp hx with rfl | hx'
      · injection hl with hl'
        rw [← hl']
        exact le_refl _
      · cases hx'
    | cons b t' =>
      rw [List.getLast?_cons_cons] at hl
      intro x hx
      rcases List.mem_cons.mp hx with rfl | hx'
      · exact (List.pairwise_cons.mp hs).1 last (mem_of_getLast?_eq hl)
      · exact ih (List.pairwise_cons.mp hs).2 hl x hx'

theorem ingest_preserves_inv (s : LedgerState) (batch : List Trade)
    (hsorted : batch.Pairwise (fun a b => a.timestamp ≤ b.timestamp))
    (hnodup : batch.Nodup) (hinv : ledgerInv s) :
    ledgerInv (ingest s batch) := by
  obtain ⟨hnd, hbound, hnonew⟩ := hinv
  have hAsorted :
      (batch.filter (tradeIsNew s.watermark)).Pairwise
        (fun a b => a.timestamp ≤ b.timestamp) :=
    hsorted.filter _
  have hAnodup : (batch.filter (tradeIsNew s.watermark)).Nodup :=
    hnodup.filter _
  have hAnew : ∀ t ∈ batch.filter (tradeIsNew s.watermark),
      tradeIsNew s.watermark t = true :=
    fun t ht => (List.mem_filter.mp ht).2
  rw [ingest]
  cases hl : (batch.filter (tradeIsNew s.watermark)).getLast? with
  | none => exact ⟨hnd, hbound, hnonew⟩
  | some last =>
    have hlastA : last ∈ batch.filter (tradeIsNew s.watermark) :=
      mem_of_getLast?_eq hl
    refine ⟨?_, ?_, ?_⟩
    · refine hnd.append hAnodup ?_
      intro x hx hx'
      cases hw : s.watermark with
      | none => rw [hnonew hw] at hx; cases hx
      | some w =>
        have h1 : x.timestamp ≤ w := hbound x hx w hw
        have h2 : tradeIsNew (some w) x = true := by
          rw [← hw]; exact hAnew x hx'
        simp only [tradeIsNew, strLtb_iff] at h2
        exact absurd (lt_of_le_of_lt h1 h2) (lt_irrefl _)
    · intro t ht w' hw'
      injection hw' with hw''
      rw [← hw'']
      rcases List.mem_append.mp ht with h | h
      · cases hwm : s.watermark with
        | none => rw [hnonew hwm] at h; cases h
        | some w0 =>
          have h1 : t.timestamp ≤ w0 := hbound t h w0 hwm
          have h2 : tradeIsNew (some w0) last = true := by
            rw [← hwm]; exact hAnew last hlastA
          simp only [tradeIsNew, strLtb_iff] at h2
          exact le_of_lt (lt_of_le_of_lt h1 h2)
      · exact sorted_timestamp_le_getLast _ hAsorted last hl t h
    · intro hcontra
      exact Option.noConfusion hcontra

theorem runCalls_preserves_inv (rs : List FetchResult) (s : LedgerState)
    (hgood : ∀ recs batch, FetchResult.success recs ∈ rs →
      parseTrades recs = .ok batch →
      batch.Pairwise (fun a b => a.timestamp ≤ b.timestamp) ∧ batch.Nodup)
    (hinv : ledgerInv s) : ledgerInv (runCalls s rs) := by
  induction rs generalizing s with
  | nil => exact hinv
  | cons r rs ih =>
    have hstep : ledgerInv
        (match getMarketTrades s r with
         | .ok (s', _) => s'
         | .error _ => s) := by
      cases r with
      | raise exc => exact hinv
      | badStatus status => exact hinv
      | success recs =>
        cases hp : parseTrades recs with
        | error e =>
          simp only [getMarketTrades, hp]
          exact hinv
        | ok batch =>
          obtain ⟨hso, hnd⟩ :=
            hgood recs batch (List.mem_cons_self _ _) hp
          simp only [getMarketTrades, hp]
          exact ingest_preserves_inv s batch hso hnd hinv
    exact ih _
      (fun recs batch hm hp =>
        hgood recs batch (List.mem_cons_of_mem _ hm) hp)
      hstep

/-- **C3.** Starting from the bot's initial state, for any sequence of
`get_market_trades` calls in which each successfully parsed batch is
returned in non-decreasing timestamp order and itself contains no
duplicates, the accumulated trade list never contains two identical
`(timestamp, buyer, seller, product, price, volume)` entries. -/
theorem ledger_no_duplicates (rs : List FetchResult)
    (hgood : ∀ recs batch, FetchResult.success recs ∈ rs →
      parseTrades recs = .ok batch →
      batch.Pairwise (fun a b => a.timestamp ≤ b.timestamp) ∧ batch.Nodup) :
    (runCalls ⟨[], none⟩ rs).trades.Nodup :=
  (runCalls_preserves_inv rs ⟨[], none⟩ hgood
    ⟨List.nodup_nil, fun t ht => absurd ht (List.not_mem_nil t),
      fun _ => rfl⟩).1

/-- **C3 witness**: two successful refreshes — the first delivering two
ordered, duplicate-free trades, the second redelivering the boundary trade
plus a fresh one — leave the ledger duplicate-free. -/
theorem ledger_no_duplicates_witness :
    (runCalls ⟨[], none⟩
        [.success [sampleRecOld, sampleRecEq],
         .success [sampleRecEq, sampleRecNew]]).trades.Nodup :=
  ledger_no_duplicates
    [.success [sampleRecOld, sampleRecEq],
     .success [sampleRecEq, sampleRecNew]]
    (by
      intro recs batch hm hp
      rcases List.mem_cons.mp hm with h | h
      · injection h with h'
        subst h'
        have : parseTrades [sampleRecOld, sampleRecEq] =
            .ok [sampleTradeOld, sampleTradeEq] := rfl
        rw [this] at hp
        injection hp with hp'
        subst hp'
        refine ⟨List.pairwise_cons.mpr ⟨?_, ?_⟩, by decide⟩
        · intro t ht
          rcases List.mem_cons.mp ht with rfl | ht'
          · rw [String.le_iff_toList_le]; decide
          · cases ht'
        · simp
      · rcases List.mem_cons.mp h with h' | h'
        · injection h' with h''
          subst h''
          have : parseTrades [sampleRecEq, sampleRecNew] =
              .ok [sampleTradeEq, sampleTradeNew] := rfl
          rw [this] at hp
          injection hp with hp'
          subst hp'
          refine ⟨List.pairwise_cons.mpr ⟨?_, ?_⟩, by decide⟩
          · intro t ht
            rcases List.mem_cons.mp ht with rfl | ht'
            · rw [String.le_iff_toList_le]; decide
            · cases ht'
          · simp
        · cases h')

theorem filterMap_range_get {α β : Type} (l : List α) (f : α → Option β) :
    (List.range l.length).filterMap (fun i => (l.get? i).bind f) =
      l.filterMap f := by
  induction l with
  | nil => rfl
  | cons a t ih =>
    rw [List.length_cons, List.range_succ_eq_map, List.filterMap_cons,
      List.filterMap_map]
    have hcomp : ((fun i => ((a :: t).get? i).bind f) ∘ Nat.succ) =
        fun i => (t.get? i).bind f := by
      funext i; rfl
    rw [hcomp, ih, List.filterMap_cons]
    rfl

theorem length_filterMap_sub {α β : Type} (l : List α) (f : α → Option β) :
    (l.filterMap f).length =
      l.length - l.countP (fun x => (f x).isNone) := by
  induction l with
  | nil => rfl
  | cons a t ih =>
    rw [List.filterMap_cons, List.countP_cons, List.length_cons]
    have hc : t.countP (fun x => (f x).isNone) ≤ t.length :=
      List.countP_le_length _
    cases hfa : f a <;> simp [hfa, ih] <;> omega

/-- **C6.** For every batch of legs and every completion order of the
per-leg threads, `send_orders` returns exactly the responses of the legs
the venue accepted — as a multiset it equals the successful subsequence,
and its length is N − K where K is the number of venue-rejected legs; the
result order is whatever the completion schedule dictates, so no
correspondence with the input order is guaranteed, and no leg's failure
escapes as an exception. -/
theorem send_orders_partial_failure
    (legs : List (OrderRequest × RestReply)) (sched : List Nat)
    (hperm : sched.Perm (List.range legs.length)) :
    (sendOrders legs sched).Perm
        (legs.filterMap (fun l => sendOrder l.1 l.2)) ∧
      (sendOrders legs sched).length =
        legs.length - legs.countP (fun l => l.2.isErr) := by
  have hbase : (List.range legs.length).filterMap
      (fun i => (legs.get? i).bind (fun l => sendOrder l.1 l.2)) =
        legs.filterMap (fun l => sendOrder l.1 l.2) :=
    filterMap_range_get legs (fun l => sendOrder l.1 l.2)
  have hp : (sendOrders legs sched).Perm
      (legs.filterMap (fun l => sendOrder l.1 l.2)) := by
    rw [sendOrders, ← hbase]
    exact hperm.filterMap _
  refine ⟨hp, ?_⟩
  rw [hp.length_eq, length_filterMap_sub]
  congr 1
  apply List.countP_congr
  intro x _
  cases x.2 with
  | ok resp => simp [sendOrder, RestReply.isErr]
  | err status => simp [sendOrder, RestReply.isErr]

/-- **C6 witness**: of three legs with the middle one rejected, the
dispatcher returns the two successful responses (here in schedule order
2, 0, 1), i.e. N − K = 3 − 1 = 2 responses. -/
theorem send_orders_partial_failure_witness :
    (sendOrders sampleLegs [2, 0, 1]).Perm
        (sampleLegs.filterMap (fun l => sendOrder l.1 l.2)) ∧
      (sendOrders sampleLegs [2, 0, 1]).length =
        sampleLegs.length - sampleLegs.countP (fun l => l.2.isErr) :=
  send_orders_partial_failure sampleLegs [2, 0, 1] (by decide)

theorem mergeSort_desc_strict (l : List Order)
    (h : (l.map Order.price).Nodup) :
    (l.mergeSort (fun a b => decide (b.price ≤ a.price))).Pairwise
      (fun a b => b.price < a.price) := by
  have hperm := List.mergeSort_perm l (fun a b => decide (b.price ≤ a.price))
  have hsorted := @List.sorted_mergeSort Order
    (fun a b => decide (b.price ≤ a.price))
    (fun a b c hab hbc => by
      simp only [decide_eq_true_eq] at *
      exact le_trans hbc hab)
    (fun a b => by
      simp only [Bool.or_eq_true, decide_eq_true_eq]
      exact le_total b.price a.price)
    l
  have hle : (l.mergeSort (fun a b => decide (b.price ≤ a.price))).Pairwise
      (fun a b => b.price ≤ a.price) :=
    hsorted.imp (fun hab => by simpa using hab)
  have hnd : ((l.mergeSort (fun a b =>
      decide (b.price ≤ a.price))).map Order.price).Nodup :=
    ((hperm.map Order.price).nodup_iff).mpr h
  have hne : (l.mergeSort (fun a b => decide (b.price ≤ a.price))).Pairwise
      (fun a b => a.price ≠ b.price) :=
    List.pairwise_map.mp hnd
  exact (hle.and hne).imp
    (fun hab => lt_of_le_of_ne hab.1 (Ne.symm hab.2))

theorem mergeSort_asc_strict (l : List Order)
    (h : (l.map Order.price).Nodup) :
    (l.mergeSort (fun a b => decide (a.price ≤ b.price))).Pairwise
      (fun a b => a.price < b.price) := by
  have hperm := List.mergeSort_perm l (fun a b => decide (a.price ≤ b.price))
  have hsorted := @List.sorted_mergeSort Order
    (fun a b => decide (a.price ≤ b.price))
    (fun a b c hab hbc => by
      simp only [decide_eq_true_eq] at *
      exact le_trans hab hbc)
    (fun a b => by
      simp only [Bool.or_eq_true, decide_eq_true_eq]
      exact le_total a.price b.price)
    l
  have hle : (l.mergeSort (fun a b => decide (a.price ≤ b.price))).Pairwise
      (fun a b => a.price ≤ b.price) :=
    hsorted.imp (fun hab => by simpa using hab)
  have hnd : ((l.mergeSort (fun a b =>
      decide (a.price ≤ b.price))).map Order.price).Nodup :=
    ((hperm.map Order.price).nodup_iff).mpr h
  have hne : (l.mergeSort (fun a b => decide (a.price ≤ b.price))).Pairwise
      (fun a b => a.price ≠ b.price) :=
    List.pairwise_map.mp hnd
  exact (hle.and hne).imp (fun hab => lt_of_le_of_ne hab.1 hab.2)

theorem mergeSort_desc_unique (l l' : List Order) (hperm : l'.Perm l)
    (h : (l.map Order.price).Nodup) :
    l'.mergeSort (fun a b => decide (b.price ≤ a.price)) =
      l.mergeSort (fun a b => decide (b.price ≤ a.price)) := by
  have h' : (l'.map Order.price).Nodup := ((hperm.map _).nodup_iff).mpr h
  have hp : (l'.mergeSort (fun a b => decide (b.price ≤ a.price))).Perm
      (l.mergeSort (fun a b => decide (b.price ≤ a.price))) :=
    (List.mergeSort_perm l' _).trans
      (hperm.trans (List.mergeSort_perm l _).symm)
  haveI : IsAntisymm Order (fun a b => b.price < a.price) :=
    ⟨fun a b h1 h2 => absurd (lt_trans h1 h2) (lt_irrefl _)⟩
  exact List.eq_of_perm_of_sorted hp
    (mergeSort_desc_strict l' h') (mergeSort_desc_strict l h)

theorem mergeSort_asc_unique (l l' : List Order) (hperm : l'.Perm l)
    (h : (l.map Order.price).Nodup) :
    l'.mergeSort (fun a b => decide (a.price ≤ b.price)) =
      l.mergeSort (fun a b => decide (a.price ≤ b.price)) := by
  have h' : (l'.map Order.price).Nodup := ((hperm.map _).nodup_iff).mpr h
  have hp : (l'.mergeSort (fun a b => decide (a.price ≤ b.price))).Perm
      (l.mergeSort (fun a b => decide (a.price ≤ b.price))) :=
    (List.mergeSort_perm l' _).trans
      (hperm.trans (List.mergeSort_perm l _).symm)
  haveI : IsAntisymm Order (fun a b => a.price < b.price) :=
    ⟨fun a b h1 h2 => absurd (lt_trans h1 h2) (lt_irrefl _)⟩
  exact List.eq_of_perm_of_sorted hp
    (mergeSort_asc_strict l' h') (mergeSort_asc_strict l h)

theorem wire_price_nodup {l : List WireLevel}
    (h : (l.map WireLevel.price).Nodup) :
    ((l.map wireOrder).map Order.price).Nodup := by
  rw [List.map_map]
  have : (Order.price ∘ wireOrder) = WireLevel.price := by
    funext e; rfl
  rwa [this]

/-- **C5.** For every order-book event whose two wire mappings have
pairwise-distinct prices (JSON object keys are distinct), the published
`OrderBook` has buy levels strictly descending and sell levels strictly
ascending by price, each side is exactly the wire entries, and the result
is independent of the order in which the wire entries are iterated. -/
theorem on_order_event_sorted (product : String) (tickSize : Rat)
    (buyM sellM : List WireLevel)
    (hb : (buyM.map WireLevel.price).Nodup)
    (hs : (sellM.map WireLevel.price).Nodup) :
    (onOrderEvent product tickSize buyM sellM).buy_orders.Pairwise
        (fun a b => b.price < a.price) ∧
      (onOrderEvent product tickSize buyM sellM).sell_orders.Pairwise
        (fun a b => a.price < b.price) ∧
      (onOrderEvent product tickSize buyM sellM).buy_orders.Perm
        (buyM.map wireOrder) ∧
      (onOrderEvent product tickSize buyM sellM).sell_orders.Perm
        (sellM.map wireOrder) ∧
      ∀ buyM' sellM', buyM'.Perm buyM → sellM'.Perm sellM →
        onOrderEvent product tickSize buyM' sellM' =
          onOrderEvent product tickSize buyM sellM := by
  refine ⟨mergeSort_desc_strict _ (wire_price_nodup hb),
    mergeSort_asc_strict _ (wire_price_nodup hs),
    List.mergeSort_perm _ _, List.mergeSort_perm _ _, ?_⟩
  intro buyM' sellM' hbp hsp
  have h1 : (buyM'.map wireOrder).mergeSort
      (fun a b => decide (b.price ≤ a.price)) =
        (buyM.map wireOrder).mergeSort
          (fun a b => decide (b.price ≤ a.price)) :=
    mergeSort_desc_unique _ _ (hbp.map wireOrder) (wire_price_nodup hb)
  have h2 : (sellM'.map wireOrder).mergeSort
      (fun a b => decide (a.price ≤ b.price)) =
        (sellM.map wireOrder).mergeSort
          (fun a b => decide (a.price ≤ b.price)) :=
    mergeSort_asc_unique _ _ (hsp.map wireOrder) (wire_price_nodup hs)
  simp only [onOrderEvent, h1, h2]

/-- **C5 witness**: the spec's M1 example book — wire buys
{99 ↦ (10,0), 100 ↦ (5,0)} and sells {102 ↦ (6,0), 101 ↦ (4,0)} delivered
in scrambled order — is published with buys 100, 99 and sells 101, 102. -/
theorem on_order_event_sorted_witness :
    (onOrderEvent "M1" 1 [⟨99, 10, 0⟩, ⟨100, 5, 0⟩]
        [⟨102, 6, 0⟩, ⟨101, 4, 0⟩]).buy_orders.Pairwise
        (fun a b => b.price < a.price) ∧
      (onOrderEvent "M1" 1 [⟨99, 10, 0⟩, ⟨100, 5, 0⟩]
          [⟨102, 6, 0⟩, ⟨101, 4, 0⟩]).sell_orders.Pairwise
        (fun a b => a.price < b.price) ∧
      (onOrderEvent "M1" 1 [⟨99, 10, 0⟩, ⟨100, 5, 0⟩]
          [⟨102, 6, 0⟩, ⟨101, 4, 0⟩]).buy_orders.Perm
        ([⟨99, 10, 0⟩, ⟨100, 5, 0⟩].map wireOrder) ∧
      (onOrderEvent "M1" 1 [⟨99, 10, 0⟩, ⟨100, 5, 0⟩]
          [⟨102, 6, 0⟩, ⟨101, 4, 0⟩]).sell_orders.Perm
        ([⟨102, 6, 0⟩, ⟨101, 4, 0⟩].map wireOrder) ∧
      ∀ buyM' sellM', buyM'.Perm [⟨99, 10, 0⟩, ⟨100, 5, 0⟩] →
        sellM'.Perm [⟨102, 6, 0⟩, ⟨101, 4, 0⟩] →
        onOrderEvent "M1" 1 buyM' sellM' =
          onOrderEvent "M1" 1 [⟨99, 10, 0⟩, ⟨100, 5, 0⟩]
            [⟨102, 6, 0⟩, ⟨101, 4, 0⟩] :=
  on_order_event_sorted "M1" 1 [⟨99, 10, 0⟩, ⟨100, 5, 0⟩]
    [⟨102, 6, 0⟩, ⟨101, 4, 0⟩] (by decide) (by decide)

theorem synthBid_none_M1 (books : Books) (h : bestBid books M1 = none) :
    synthBid books = none := by
  rw [synthBid, h]

theorem synthBid_none_M3 (books : Books) (h : bestBid books M3 = none) :
    synthBid books = none := by
  rw [synthBid, h]
  cases bestBid books M1 <;> rfl

theorem synthBid_none_M5 (books : Books) (h : bestBid books M5 = none) :
    synthBid books = none := by
  rw [synthBid, h]
  cases bestBid books M1 <;> cases bestBid books M3 <;> rfl

theorem synthAsk_none_M1 (books : Books) (h : bestAsk books M1 = none) :
    synthAsk books = none := by
  rw [synthAsk, h]

theorem synthAsk_none_M3 (books : Books) (h : bestAsk books M3 = none) :
    synthAsk books = none := by
  rw [synthAsk, h]
  cases bestAsk books M1 <;> rfl

theorem synthAsk_none_M5 (books : Books) (h : bestAsk books M5 = none) :
    synthAsk books = none := by
  rw [synthAsk, h]
  cases bestAsk books M1 <;> cases bestAsk books M3 <;> rfl

theorem checkArbitrage_none_of_missing (cfg : ArbConfig) (books : Books)
    (pos : String → Int)
    (h : bestBid books M7 = none ∨ bestAsk books M7 = none ∨
      synthBid books = none ∨ synthAsk books = none) :
    checkArbitrage cfg books pos = none := by
  rcases h with h | h | h | h
  · rw [checkArbitrage, h]
  · rw [checkArbitrage, h]
    cases bestBid books M7 <;> rfl
  · rw [checkArbitrage, h]
    cases bestBid books M7 <;> cases bestAsk books M7 <;> rfl
  · rw [checkArbitrage, h]
    cases bestBid books M7 <;> cases bestAsk books M7 <;>
      cases synthBid books <;> rfl

theorem synthBid_components (books : Books) (v : Rat)
    (h : synthBid books = some v) :
    ∃ b1 b3 b5, bestBid books M1 = some b1 ∧ bestBid books M3 = some b3 ∧
      bestBid books M5 = some b5 ∧ v = b1 + b3 + b5 := by
  rw [synthBid] at h
  cases h1 : bestBid books M1 with
  | none => rw [h1] at h; exact Option.noConfusion h
  | some b1 =>
    cases h3 : bestBid books M3 with
    | none => rw [h1, h3] at h; exact Option.noConfusion h
    | some b3 =>
      cases h5 : bestBid books M5 with
      | none => rw [h1, h3, h5] at h; exact Option.noConfusion h
      | some b5 =>
        rw [h1, h3, h5] at h
        injection h with h'
        exact ⟨b1, b3, b5, rfl, rfl, rfl, h'.symm⟩

theorem synthAsk_components (books : Books) (v : Rat)
    (h : synthAsk books = some v) :
    ∃ a1 a3 a5, bestAsk books M1 = some a1 ∧ bestAsk books M3 = some a3 ∧
      bestAsk books M5 = some a5 ∧ v = a1 + a3 + a5 := by
  rw [synthAsk] at h
  cases h1 : bestAsk books M1 with
  | none => rw [h1] at h; exact Option.noConfusion h
  | some a1 =>
    cases h3 : bestAsk books M3 with
    | none => rw [h1, h3] at h; exact Option.noConfusion h
    | some a3 =>
      cases h5 : bestAsk books M5 with
      | none => rw [h1, h3, h5] at h; exact Option.noConfusion h
      | some a5 =>
        rw [h1, h3, h5] at h
        injection h with h'
        exact ⟨a1, a3, a5, rfl, rfl, rfl, h'.symm⟩

/-- **C7.** A batch is dispatched only when a spread strictly exceeds the
configured minimum AND every one of the four legs keeps
|position ± order size| within the configured absolute cap (buy legs add
the order size, sell legs subtract it); a cap violation on any leg
suppresses the whole batch. -/
theorem check_arbitrage_gating (cfg : ArbConfig) (books : Books)
    (pos : String → Int) (batch : List OrderRequest)
    (h : checkArbitrage cfg books pos = some batch) :
    ∃ etfBid etfAsk sBid sAsk,
      bestBid books M7 = some etfBid ∧ bestAsk books M7 = some etfAsk ∧
      synthBid books = some sBid ∧ synthAsk books = some sAsk ∧
      ((etfBid - sAsk > cfg.MIN_SPREAD ∧
        |pos M1 + cfg.ORDER_SIZE| ≤ cfg.MAX_POSITION ∧
        |pos M3 + cfg.ORDER_SIZE| ≤ cfg.MAX_POSITION ∧
        |pos M5 + cfg.ORDER_SIZE| ≤ cfg.MAX_POSITION ∧
        |pos M7 - cfg.ORDER_SIZE| ≤ cfg.MAX_POSITION ∧
        executeOverpriced cfg books = some batch) ∨
       (¬ etfBid - sAsk > cfg.MIN_SPREAD ∧
        sBid - etfAsk > cfg.MIN_SPREAD ∧
        |pos M1 - cfg.ORDER_SIZE| ≤ cfg.MAX_POSITION ∧
        |pos M3 - cfg.ORDER_SIZE| ≤ cfg.MAX_POSITION ∧
        |pos M5 - cfg.ORDER_SIZE| ≤ cfg.MAX_POSITION ∧
        |pos M7 + cfg.ORDER_SIZE| ≤ cfg.MAX_POSITION ∧
        executeUnderpriced cfg books = some batch)) := by
  cases hbb : bestBid books M7 with
  | none =>
    rw [checkArbitrage_none_of_missing cfg books pos (Or.inl hbb)] at h
    exact Option.noConfusion h
  | some etfBid =>
    cases hba : bestAsk books M7 with
    | none =>
      rw [checkArbitrage_none_of_missing cfg books pos (Or.inr (Or.inl hba))]
        at h
      exact Option.noConfusion h
    | some etfAsk =>
      cases hsb : synthBid books with
      | none =>
        rw [checkArbitrage_none_of_missing cfg books pos
          (Or.inr (Or.inr (Or.inl hsb)))] at h
        exact Option.noConfusion h
      | some sBid =>
        cases hsa : synthAsk books with
        | none =>
          rw [checkArbitrage_none_of_missing cfg books pos
            (Or.inr (Or.inr (Or.inr hsa)))] at h
          exact Option.noConfusion h
        | some sAsk =>
          have hred : checkArbitrage cfg books pos =
              (if etfBid - sAsk > cfg.MIN_SPREAD then
                if |pos M1 + cfg.ORDER_SIZE| ≤ cfg.MAX_POSITION ∧
                    |pos M3 + cfg.ORDER_SIZE| ≤ cfg.MAX_POSITION ∧
                    |pos M5 + cfg.ORDER_SIZE| ≤ cfg.MAX_POSITION ∧
                    |pos M7 - cfg.ORDER_SIZE| ≤ cfg.MAX_POSITION then
                  executeOverpriced cfg books
                else none
              else if sBid - etfAsk > cfg.MIN_SPREAD then
                if |pos M1 - cfg.ORDER_SIZE| ≤ cfg.MAX_POSITION ∧
                    |pos M3 - cfg.ORDER_SIZE| ≤ cfg.MAX_POSITION ∧
                    |pos M5 - cfg.ORDER_SIZE| ≤ cfg.MAX_POSITION ∧
                    |pos M7 + cfg.ORDER_SIZE| ≤ cfg.MAX_POSITION then
                  executeUnderpriced cfg books
                else none
              else none) := by
            rw [checkArbitrage, hbb, hba, hsb, hsa]
          rw [hred] at h
          refine ⟨etfBid, etfAsk, sBid, sAsk, rfl, rfl, rfl, rfl, ?_⟩
          by_cases h1 : etfBid - sAsk > cfg.MIN_SPREAD
          · rw [if_pos h1] at h
            by_cases hcap : |pos M1 + cfg.ORDER_SIZE| ≤ cfg.MAX_POSITION ∧
                |pos M3 + cfg.ORDER_SIZE| ≤ cfg.MAX_POSITION ∧
                |pos M5 + cfg.ORDER_SIZE| ≤ cfg.MAX_POSITION ∧
                |pos M7 - cfg.ORDER_SIZE| ≤ cfg.MAX_POSITION
            · rw [if_pos hcap] at h
              exact Or.inl ⟨h1, hcap.1, hcap.2.1, hcap.2.2.1, hcap.2.2.2, h⟩
            · rw [if_neg hcap] at h
              exact Option.noConfusion h
          · rw [if_neg h1] at h
            by_cases h2 : sBid - etfAsk > cfg.MIN_SPREAD
            · rw [if_pos h2] at h
              by_cases hcap : |pos M1 - cfg.ORDER_SIZE| ≤ cfg.MAX_POSITION ∧
                  |pos M3 - cfg.ORDER_SIZE| ≤ cfg.MAX_POSITION ∧
                  |pos M5 - cfg.ORDER_SIZE| ≤ cfg.MAX_POSITION ∧
                  |pos M7 + cfg.ORDER_SIZE| ≤ cfg.MAX_POSITION
              · rw [if_pos hcap] at h
                exact Or.inr ⟨h1, h2, hcap.1, hcap.2.1, hcap.2.2.1,
                  hcap.2.2.2, h⟩
              · rw [if_neg hcap] at h
                exact Option.noConfusion h
            · rw [if_neg h2] at h
              exact Option.noConfusion h

/-- **C8.** When the overpriced spread (ETF bid − synthetic ask) and the
underpriced spread (synthetic bid − ETF ask) both strictly exceed the
minimum, at most one batch is dispatched per cycle, and if one is, it is
the overpriced branch's batch (buy the three components, sell the ETF);
the underpriced branch is never executed in that cycle. -/
theorem check_arbitrage_overpriced_precedence (cfg : ArbConfig)
    (books : Books) (pos : String → Int) (etfBid etfAsk sBid sAsk : Rat)
    (hbb : bestBid books M7 = some etfBid)
    (hba : bestAsk books M7 = some etfAsk)
    (hsb : synthBid books = some sBid) (hsa : synthAsk books = some sAsk)
    (h1 : etfBid - sAsk > cfg.MIN_SPREAD)
    (h2 : sBid - etfAsk > cfg.MIN_SPREAD) :
    (checkArbitrage cfg books pos = none ∨
      checkArbitrage cfg books pos = executeOverpriced cfg books) ∧
      ∃ a1 a3 a5, bestAsk books M1 = some a1 ∧
        bestAsk books M3 = some a3 ∧ bestAsk books M5 = some a5 ∧
        ∀ batch, checkArbitrage cfg books pos = some batch →
          batch = [⟨M1, a1, .BUY, cfg.ORDER_SIZE⟩,
            ⟨M3, a3, .BUY, cfg.ORDER_SIZE⟩, ⟨M5, a5, .BUY, cfg.ORDER_SIZE⟩,
            ⟨M7, etfBid, .SELL, cfg.ORDER_SIZE⟩] := by
  obtain ⟨a1, a3, a5, ha1, ha3, ha5, _⟩ := synthAsk_components books sAsk hsa
  have hred : checkArbitrage cfg books pos =
      (if etfBid - sAsk > cfg.MIN_SPREAD then
        if |pos M1 + cfg.ORDER_SIZE| ≤ cfg.MAX_POSITION ∧
            |pos M3 + cfg.ORDER_SIZE| ≤ cfg.MAX_POSITION ∧
            |pos M5 + cfg.ORDER_SIZE| ≤ cfg.MAX_POSITION ∧
            |pos M7 - cfg.ORDER_SIZE| ≤ cfg.MAX_POSITION then
          executeOverpriced cfg books
        else none
      else if sBid - etfAsk > cfg.MIN_SPREAD then
        if |pos M1 - cfg.ORDER_SIZE| ≤ cfg.MAX_POSITION ∧
            |pos M3 - cfg.ORDER_SIZE| ≤ cfg.MAX_POSITION ∧
            |pos M5 - cfg.ORDER_SIZE| ≤ cfg.MAX_POSITION ∧
            |pos M7 + cfg.ORDER_SIZE| ≤ cfg.MAX_POSITION then
          executeUnderpriced cfg books
        else none
      else none) := by
    rw [checkArbitrage, hbb, hba, hsb, hsa]
  have hchk : checkArbitrage cfg books pos =
      (if |pos M1 + cfg.ORDER_SIZE| ≤ cfg.MAX_POSITION ∧
          |pos M3 + cfg.ORDER_SIZE| ≤ cfg.MAX_POSITION ∧
          |pos M5 + cfg.ORDER_SIZE| ≤ cfg.MAX_POSITION ∧
          |pos M7 - cfg.ORDER_SIZE| ≤ cfg.MAX_POSITION then
        executeOverpriced cfg books
      else none) := by
    rw [hred, if_pos h1]
  have hexec : executeOverpriced cfg books =
      some [⟨M1, a1, .BUY, cfg.ORDER_SIZE⟩, ⟨M3, a3, .BUY, cfg.ORDER_SIZE⟩,
        ⟨M5, a5, .BUY, cfg.ORDER_SIZE⟩, ⟨M7, etfBid, .SELL, cfg.ORDER_SIZE⟩] := by
    rw [executeOverpriced, ha1, ha3, ha5, hbb]
  constructor
  · rw [hchk]
    by_cases hcap : |pos M1 + cfg.ORDER_SIZE| ≤ cfg.MAX_POSITION ∧
        |pos M3 + cfg.ORDER_SIZE| ≤ cfg.MAX_POSITION ∧
        |pos M5 + cfg.ORDER_SIZE| ≤ cfg.MAX_POSITION ∧
        |pos M7 - cfg.ORDER_SIZE| ≤ cfg.MAX_POSITION
    · rw [if_pos hcap]
      exact Or.inr rfl
    · rw [if_neg hcap]
      exact Or.inl rfl
  · refine ⟨a1, a3, a5, ha1, ha3, ha5, ?_⟩
    intro batch hbatch
    rw [hchk] at hbatch
    by_cases hcap : |pos M1 + cfg.ORDER_SIZE| ≤ cfg.MAX_POSITION ∧
        |pos M3 + cfg.ORDER_SIZE| ≤ cfg.MAX_POSITION ∧
        |pos M5 + cfg.ORDER_SIZE| ≤ cfg.MAX_POSITION ∧
        |pos M7 - cfg.ORDER_SIZE| ≤ cfg.MAX_POSITION
    · rw [if_pos hcap, hexec] at hbatch
      injection hbatch with hb'
      exact hb'.symm
    · rw [if_neg hcap] at hbatch
      exact Option.noConfusion hbatch

/-- **C7 witness**: on the crossed sample books with flat positions and the
default configuration, the dispatched batch is the overpriced one, and the
gating conditions hold for it. -/
theorem check_arbitrage_gating_witness :
    ∃ etfBid etfAsk sBid sAsk,
      bestBid sampleBooksCrossed M7 = some etfBid ∧
      bestAsk sampleBooksCrossed M7 = some etfAsk ∧
      synthBid sampleBooksCrossed = some sBid ∧
      synthAsk sampleBooksCrossed = some sAsk ∧
      ((etfBid - sAsk > defaultArbConfig.MIN_SPREAD ∧
        |(fun _ => (0 : Int)) M1 + defaultArbConfig.ORDER_SIZE| ≤
          defaultArbConfig.MAX_POSITION ∧
        |(fun _ => (0 : Int)) M3 + defaultArbConfig.ORDER_SIZE| ≤
          defaultArbConfig.MAX_POSITION ∧
        |(fun _ => (0 : Int)) M5 + defaultArbConfig.ORDER_SIZE| ≤
          defaultArbConfig.MAX_POSITION ∧
        |(fun _ => (0 : Int)) M7 - defaultArbConfig.ORDER_SIZE| ≤
          defaultArbConfig.MAX_POSITION ∧
        executeOverpriced defaultArbConfig sampleBooksCrossed =
          some [⟨M1, 1, .BUY, 5⟩, ⟨M3, 1, .BUY, 5⟩, ⟨M5, 1, .BUY, 5⟩,
            ⟨M7, 100, .SELL, 5⟩]) ∨
       (¬ etfBid - sAsk > defaultArbConfig.MIN_SPREAD ∧
        sBid - etfAsk > defaultArbConfig.MIN_SPREAD ∧
        |(fun _ => (0 : Int)) M1 - defaultArbConfig.ORDER_SIZE| ≤
          defaultArbConfig.MAX_POSITION ∧
        |(fun _ => (0 : Int)) M3 - defaultArbConfig.ORDER_SIZE| ≤
          defaultArbConfig.MAX_POSITION ∧
        |(fun _ => (0 : Int)) M5 - defaultArbConfig.ORDER_SIZE| ≤
          defaultArbConfig.MAX_POSITION ∧
        |(fun _ => (0 : Int)) M7 + defaultArbConfig.ORDER_SIZE| ≤
          defaultArbConfig.MAX_POSITION ∧
        executeUnderpriced defaultArbConfig sampleBooksCrossed =
          some [⟨M1, 1, .BUY, 5⟩, ⟨M3, 1, .BUY, 5⟩, ⟨M5, 1, .BUY, 5⟩,
            ⟨M7, 100, .SELL, 5⟩])) := by
  have hb7 : bestBid sampleBooksCrossed M7 = some 100 := rfl
  have ha7 : bestAsk sampleBooksCrossed M7 = some 1 := rfl
  have hb1 : bestBid sampleBooksCrossed M1 = some 60 := rfl
  have hb3 : bestBid sampleBooksCrossed M3 = some 60 := rfl
  have hb5 : bestBid sampleBooksCrossed M5 = some 60 := rfl
  have ha1 : bestAsk sampleBooksCrossed M1 = some 1 := rfl
  have ha3 : bestAsk sampleBooksCrossed M3 = some 1 := rfl
  have ha5 : bestAsk sampleBooksCrossed M5 = some 1 := rfl
  have hsb : synthBid sampleBooksCrossed = some 180 := by
    rw [synthBid, hb1, hb3, hb5]
    norm_num
  have hsa : synthAsk sampleBooksCrossed = some 3 := by
    rw [synthAsk, ha1, ha3, ha5]
    norm_num
  have hred : checkArbitrage defaultArbConfig sampleBooksCrossed
      (fun _ => 0) =
      (if (100 : Rat) - 3 > defaultArbConfig.MIN_SPREAD then
        if |(0 : Int) + defaultArbConfig.ORDER_SIZE| ≤
            defaultArbConfig.MAX_POSITION ∧
            |(0 : Int) + defaultArbConfig.ORDER_SIZE| ≤
              defaultArbConfig.MAX_POSITION ∧
            |(0 : Int) + defaultArbConfig.ORDER_SIZE| ≤
              defaultArbConfig.MAX_POSITION ∧
            |(0 : Int) - defaultArbConfig.ORDER_SIZE| ≤
              defaultArbConfig.MAX_POSITION then
          executeOverpriced defaultArbConfig sampleBooksCrossed
        else none
      else if (180 : Rat) - 1 > defaultArbConfig.MIN_SPREAD then
        if |(0 : Int) - defaultArbConfig.ORDER_SIZE| ≤
            defaultArbConfig.MAX_POSITION ∧
            |(0 : Int) - defaultArbConfig.ORDER_SIZE| ≤
              defaultArbConfig.MAX_POSITION ∧
            |(0 : Int) - defaultArbConfig.ORDER_SIZE| ≤
              defaultArbConfig.MAX_POSITION ∧
            |(0 : Int) + defaultArbConfig.ORDER_SIZE| ≤
              defaultArbConfig.MAX_POSITION then
          executeUnderpriced defaultArbConfig sampleBooksCrossed
        else none
      else none) := by
    rw [checkArbitrage, hb7, ha7, hsb, hsa]
  have hexec : executeOverpriced defaultArbConfig sampleBooksCrossed =
      some [⟨M1, 1, .BUY, 5⟩, ⟨M3, 1, .BUY, 5⟩, ⟨M5, 1, .BUY, 5⟩,
        ⟨M7, 100, .SELL, 5⟩] := by
    rw [executeOverpriced, ha1, ha3, ha5, hb7]
    rfl
  have h : checkArbitrage defaultArbConfig sampleBooksCrossed (fun _ => 0) =
      some [⟨M1, 1, .BUY, 5⟩, ⟨M3, 1, .BUY, 5⟩, ⟨M5, 1, .BUY, 5⟩,
        ⟨M7, 100, .SELL, 5⟩] := by
    rw [hred, if_pos (by norm_num [defaultArbConfig]),
      if_pos (by decide), hexec]
  exact check_arbitrage_gating defaultArbConfig sampleBooksCrossed
    (fun _ => 0) _ h

/-- **C8 witness**: on the crossed sample books both spreads (97 and 179)
exceed the default minimum of 5, yet at most one batch — the overpriced
one (buy M1, M3, M5; sell M7) — can be dispatched. -/
theorem check_arbitrage_overpriced_precedence_witness :
    (checkArbitrage defaultArbConfig sampleBooksCrossed (fun _ => 0) =
        none ∨
      checkArbitrage defaultArbConfig sampleBooksCrossed (fun _ => 0) =
        executeOverpriced defaultArbConfig sampleBooksCrossed) ∧
      ∃ a1 a3 a5, bestAsk sampleBooksCrossed M1 = some a1 ∧
        bestAsk sampleBooksCrossed M3 = some a3 ∧
        bestAsk sampleBooksCrossed M5 = some a5 ∧
        ∀ batch, checkArbitrage defaultArbConfig sampleBooksCrossed
            (fun _ => 0) = some batch →
          batch = [⟨M1, a1, .BUY, defaultArbConfig.ORDER_SIZE⟩,
            ⟨M3, a3, .BUY, defaultArbConfig.ORDER_SIZE⟩,
            ⟨M5, a5, .BUY, defaultArbConfig.ORDER_SIZE⟩,
            ⟨M7, 100, .SELL, defaultArbConfig.ORDER_SIZE⟩] := by
  have hb7 : bestBid sampleBooksCrossed M7 = some 100 := rfl
  have ha7 : bestAsk sampleBooksCrossed M7 = some 1 := rfl
  have hb1 : bestBid sampleBooksCrossed M1 = some 60 := rfl
  have hb3 : bestBid sampleBooksCrossed M3 = some 60 := rfl
  have hb5 : bestBid sampleBooksCrossed M5 = some 60 := rfl
  have ha1 : bestAsk sampleBooksCrossed M1 = some 1 := rfl
  have ha3 : bestAsk sampleBooksCrossed M3 = some 1 := rfl
  have ha5 : bestAsk sampleBooksCrossed M5 = some 1 := rfl
  have hsb : synthBid sampleBooksCrossed = some 180 := by
    rw [synthBid, hb1, hb3, hb5]
    norm_num
  have hsa : synthAsk sampleBooksCrossed = some 3 := by
    rw [synthAsk, ha1, ha3, ha5]
    norm_num
  exact check_arbitrage_overpriced_precedence defaultArbConfig
    sampleBooksCrossed (fun _ => 0) 100 1 180 3 hb7 ha7 hsb hsa
    (by norm_num [defaultArbConfig]) (by norm_num [defaultArbConfig])

/-- **C9.** An order-book update dispatches nothing unless all four
required products have received at least one snapshot, and even then the
evaluation aborts silently — no orders, no error — when any required leg's
best bid or best ask is unavailable. -/
theorem on_orderbook_requires_data (books : Books) (pos : String → Int)
    (cfg : ArbConfig) (ob : OrderBook)
    (h : (∃ m ∈ requiredMarkets, (onOrderbook books pos cfg ob).1 m = none) ∨
      (∃ m ∈ requiredMarkets,
        bestBid (onOrderbook books pos cfg ob).1 m = none ∨
        bestAsk (onOrderbook books pos cfg ob).1 m = none)) :
    (onOrderbook books pos cfg ob).2 = none := by
  have hfst : (onOrderbook books pos cfg ob).1 =
      fun p => if p = ob.product then some ob else books p := by
    rw [onOrderbook]
    by_cases hall : requiredMarkets.all
        (fun m => (if m = ob.product then some ob else books m).isSome)
    · rw [if_pos hall]
    · rw [if_neg hall]
  rw [onOrderbook]
  by_cases hall : requiredMarkets.all
      (fun m => (if m = ob.product then some ob else books m).isSome)
  · rw [if_pos hall]
    show checkArbitrage cfg _ pos = none
    rcases h with ⟨m, hm, hnone⟩ | ⟨m, hm, hside⟩
    · rw [hfst] at hnone
      have hnone' : (if m = ob.product then some ob else books m) = none :=
        hnone
      have hsome := List.all_eq_true.mp hall m hm
      rw [hnone'] at hsome
      exact absurd hsome (by simp)
    · rw [hfst] at hside
      apply checkArbitrage_none_of_missing
      simp only [requiredMarkets, List.mem_cons, List.not_mem_nil,
        or_false] at hm
      rcases hm with rfl | rfl | rfl | rfl
      · rcases hside with hb | ha
        · exact Or.inr (Or.inr (Or.inl (synthBid_none_M1 _ hb)))
        · exact Or.inr (Or.inr (Or.inr (synthAsk_none_M1 _ ha)))
      · rcases hside with hb | ha
        · exact Or.inr (Or.inr (Or.inl (synthBid_none_M3 _ hb)))
        · exact Or.inr (Or.inr (Or.inr (synthAsk_none_M3 _ ha)))
      · rcases hside with hb | ha
        · exact Or.inr (Or.inr (Or.inl (synthBid_none_M5 _ hb)))
        · exact Or.inr (Or.inr (Or.inr (synthAsk_none_M5 _ ha)))
      · rcases hside with hb | ha
        · exact Or.inl hb
        · exact Or.inr (Or.inl ha)
  · rw [if_neg hall]

/-- **C9 witness**: with all four books present but M3's buy side empty,
the update for M1 aborts silently with no dispatch. -/
theorem on_orderbook_requires_data_witness :
    (onOrderbook sampleBooksNoBidM3 (fun _ => 0) defaultArbConfig
      (sampleBook "M1" 60 1)).2 = none :=
  on_orderbook_requires_data sampleBooksNoBidM3 (fun _ => 0)
    defaultArbConfig (sampleBook "M1" 60 1)
    (Or.inr ⟨M3, by decide, Or.inl (by rfl)⟩)

end IMCooked
